import Mathlib

/-!
# Verification of the ODP Python SDK client layer

A shallow embedding of the client layer of the ODP SDK (token provider,
HTTP transport, resource DTOs, and the catalog/raw/tabular sub-clients),
together with theorems settling the specification claims about it.

The repository snapshot ships only the callers of the SDK (example
notebooks, docs, build and CI files); the implementation modules
(`odp.client`, `odp.dto`, the transport and the token provider) are not
part of the snapshot.  Every definition below that embeds one of those
missing modules is therefore modelled from the specification text and is
marked `Modelled from the spec:` in its doc comment.
-/

namespace ODP

/-- Modelled from the spec: the error taxonomy of §7 of the design
(`AuthError`, `NotFoundError`, `ConflictError`, `ValidationError`,
`ServiceError`, `NetworkError`); the implementation module `odp.client.exc`
is not in the snapshot. -/
inductive ErrorKind where
  | auth
  | notFound
  | conflict
  | validation
  | service
  | network
deriving DecidableEq, Repr

/-- Modelled from the spec: "All errors carry status code and
server-provided message body" (§4.2).  A `NetworkError` has no HTTP
status; it carries status `0`. -/
structure OdpError where
  kind : ErrorKind
  status : Nat
  message : String
deriving DecidableEq, Repr

/-! ## Token provider (§4.1) -/

/-- Modelled from the spec: a bearer token, "bearer string + expiry
instant" (§3).  Instants are natural numbers (seconds since an epoch). -/
structure Token where
  value : String
  expiry : Nat
deriving DecidableEq, Repr

/-- Modelled from the spec: the token provider's mutable cache, "caches
the token and its expiry" (§4.1). -/
structure TokenState where
  cached : Option Token
deriving DecidableEq, Repr

/-- Result of one `get_token()` call: the token handed to the caller, the
provider state afterwards, and whether a network request to the identity
provider was performed. -/
structure TokenResult where
  token : Token
  state : TokenState
  networkCall : Bool
deriving DecidableEq, Repr

/-- Modelled from the spec: "a request triggers refresh only when the
cached token is absent or within a safety margin (e.g., 60s) of expiry"
(§4.1). -/
def needsRefresh (st : TokenState) (now margin : Nat) : Bool :=
  match st.cached with
  | none => true
  | some t => t.expiry ≤ now + margin

/-- Modelled from the spec: `get_token()` of the token provider (§4.1).
The identity-provider exchange is abstracted as `fetch`, mapping the
current instant to the token the identity provider returns.  The cached
token is served whenever it is still outside the safety margin of its
expiry; otherwise a fresh token is fetched and cached. -/
def getToken (fetch : Nat → Token) (st : TokenState) (now margin : Nat) : TokenResult :=
  match st.cached with
  | some t =>
      if now + margin < t.expiry then
        { token := t, state := st, networkCall := false }
      else
        let t' := fetch now
        { token := t', state := { cached := some t' }, networkCall := true }
  | none =>
      let t' := fetch now
      { token := t', state := { cached := some t' }, networkCall := true }

/-- C1: with valid credentials (every fetched token expires beyond the
safety margin), `get_token()` returns a non-expired token; a second call
made while the cached token is still outside the safety margin returns the
same token string with no network request; and a network refresh happens
exactly when the cached token is absent or within the safety margin of
expiry. -/
theorem getToken_cache_spec (fetch : Nat → Token) (st : TokenState) (now now' margin : Nat)
    (hvalid : ∀ n, n + margin < (fetch n).expiry) :
    now < (getToken fetch st now margin).token.expiry ∧
    (now' + margin < (getToken fetch st now margin).token.expiry →
      (getToken fetch (getToken fetch st now margin).state now' margin).token.value
          = (getToken fetch st now margin).token.value ∧
      (getToken fetch (getToken fetch st now margin).state now' margin).networkCall = false) ∧
    ((getToken fetch st now margin).networkCall = needsRefresh st now margin) := by
  obtain ⟨cached⟩ := st
  rcases cached with _ | t
  · simp only [getToken, needsRefresh]
    refine ⟨Nat.lt_of_le_of_lt (Nat.le_add_right now margin) (hvalid now), ?_, trivial⟩
    intro hfresh
    simp only [if_pos hfresh]
    exact ⟨trivial, trivial⟩
  · by_cases hmar : now + margin < t.expiry
    · simp only [getToken, needsRefresh, if_pos hmar]
      refine ⟨Nat.lt_of_le_of_lt (Nat.le_add_right now margin) hmar, ?_, ?_⟩
      · intro hfresh
        simp only [if_pos hfresh]
        exact ⟨trivial, trivial⟩
      · simp [Nat.not_le.mpr hmar]
    · simp only [getToken, needsRefresh, if_neg hmar]
      refine ⟨Nat.lt_of_le_of_lt (Nat.le_add_right now margin) (hvalid now), ?_, ?_⟩
      · intro hfresh
        simp only [if_pos hfresh]
        exact ⟨trivial, trivial⟩
      · simp [Nat.le_of_not_lt hmar]

/-- Witness for C1 at a concrete input: an empty cache at instant 0 with a
60-second margin and an identity provider issuing tokens valid for 3600
seconds; the second call at instant 100 hits the cache. -/
theorem getToken_cache_spec_witness :
    0 < (getToken (fun n => ⟨"tok", n + 3600⟩) ⟨none⟩ 0 60).token.expiry ∧
    ((getToken (fun n => ⟨"tok", n + 3600⟩)
        (getToken (fun n => ⟨"tok", n + 3600⟩) ⟨none⟩ 0 60).state 100 60).token.value
      = (getToken (fun n => ⟨"tok", n + 3600⟩) ⟨none⟩ 0 60).token.value ∧
     (getToken (fun n => ⟨"tok", n + 3600⟩)
        (getToken (fun n => ⟨"tok", n + 3600⟩) ⟨none⟩ 0 60).state 100 60).networkCall = false) ∧
    (getToken (fun n => ⟨"tok", n + 3600⟩) ⟨none⟩ 0 60).networkCall
      = needsRefresh ⟨none⟩ 0 60 := by
  have h := getToken_cache_spec (fun n => ⟨"tok", n + 3600⟩) ⟨none⟩ 0 100 60
    (fun n => by show n + 60 < n + 3600; omega)
  exact ⟨h.1, h.2.1 (by decide), h.2.2⟩

/-! ## HTTP transport (§4.2) -/

/-- HTTP methods exposed by the transport. -/
inductive Method where
  | get
  | post
  | put
  | delete
deriving DecidableEq, Repr

/-- Modelled from the spec: the observable outcome of one network attempt —
either a transport-level connection failure or an HTTP response with a
status code and a body; the transport module is not in the snapshot. -/
inductive Outcome where
  | netError (message : String)
  | response (status : Nat) (body : String)
deriving DecidableEq, Repr

/-- Modelled from the spec: "Maps HTTP status to a typed error:
401/403→AuthError, 404→NotFoundError, 409→ConflictError, 4xx
other→ValidationError, 5xx→ServiceError.  All errors carry status code and
server-provided message body." (§4.2) -/
def statusError (status : Nat) (body : String) : OdpError :=
  if status = 401 ∨ status = 403 then ⟨.auth, status, body⟩
  else if status = 404 then ⟨.notFound, status, body⟩
  else if status = 409 then ⟨.conflict, status, body⟩
  else if 500 ≤ status then ⟨.service, status, body⟩
  else ⟨.validation, status, body⟩

/-- Success statuses of the transport. -/
def is2xx (status : Nat) : Bool := 200 ≤ status && status < 300

/-- Modelled from the spec: the result of a single attempt — the body on a
2xx response, the mapped typed error on any other status, and a
`NetworkError` on a connection failure (§4.2, §7). -/
def outcomeResult (o : Outcome) : Except OdpError String :=
  match o with
  | .netError m => .error ⟨.network, 0, m⟩
  | .response s b => if is2xx s then .ok b else .error (statusError s b)

/-- Modelled from the spec: the outcomes the transport treats as transient
— "transient network errors and 429/5xx" (§4.2). -/
def isTransient (o : Outcome) : Bool :=
  match o with
  | .netError _ => true
  | .response s _ => s == 429 || (500 ≤ s && s < 600)

/-- Modelled from the spec: "Retries idempotent methods (GET) ...;
non-idempotent methods (POST/PUT/DELETE) are not retried automatically"
(§4.2). -/
def retryEligible (m : Method) : Bool :=
  match m with
  | .get => true
  | _ => false

/-- Modelled from the spec: the exponential backoff delay slept before the
k-th retry (0-based), doubling from a base delay (§4.2). -/
def backoffDelay (base k : Nat) : Nat := base * 2 ^ k

/-- Observable trace of one transport call: its final result, how many
attempts were made, and the backoff delays slept between attempts. -/
structure RequestTrace where
  result : Except OdpError String
  attempts : Nat
  delays : List Nat
deriving Repr

/-- Modelled from the spec: the transport retry loop (§4.2).  `script i` is
the outcome of the i-th attempt (0-based), `retry` says whether the method
is retry-eligible, and the `Nat` argument is the number of attempts still
allowed.  A failed attempt is retried — after sleeping the exponential
backoff delay — only when the method is eligible, the outcome transient,
and attempts remain. -/
def requestLoop (script : Nat → Outcome) (retry : Bool) (base : Nat) (i : Nat) :
    Nat → RequestTrace
  | 0 => { result := .error ⟨.network, 0, "no attempts allowed"⟩, attempts := 0, delays := [] }
  | n + 1 =>
    match outcomeResult (script i) with
    | .ok b => { result := .ok b, attempts := 1, delays := [] }
    | .error e =>
      if retry && isTransient (script i) && decide (0 < n) then
        let rest := requestLoop script retry base (i + 1) n
        { result := rest.result, attempts := rest.attempts + 1,
          delays := backoffDelay base i :: rest.delays }
      else
        { result := .error e, attempts := 1, delays := [] }

/-- Modelled from the spec: `request(method, path, body?, query?)` of the
transport, observed through the outcome script of its attempts; the
configured attempt limit bounds the loop (§4.2). -/
def request (m : Method) (maxAttempts base : Nat) (script : Nat → Outcome) : RequestTrace :=
  requestLoop script (retryEligible m) base 0 maxAttempts

/-- A transient outcome never parses as a success. -/
theorem isTransient_result (o : Outcome) (h : isTransient o = true) :
    ∃ e, outcomeResult o = .error e ∧
      (e.kind = .network ∨ e.kind = .service ∨ e.kind = .validation) := by
  rcases o with m | ⟨s, b⟩
  · exact ⟨⟨.network, 0, m⟩, rfl, Or.inl rfl⟩
  · simp only [isTransient, Bool.or_eq_true, beq_iff_eq, Bool.and_eq_true, decide_eq_true_eq]
      at h
    have h2 : is2xx s = false := by
      simp only [is2xx, Bool.and_eq_false_iff, decide_eq_false_iff_not]
      rcases h with h | ⟨h, _⟩ <;> omega
    refine ⟨statusError s b, by simp [outcomeResult, h2], ?_⟩
    rcases h with h | ⟨h5, _⟩
    · subst h
      right; right; rfl
    · right; left
      simp only [statusError]
      rw [if_neg (by omega), if_neg (by omega), if_neg (by omega), if_pos h5]

/-- On a script whose every attempt fails with a transient outcome, the
eligible retry loop uses all its attempts, sleeps the doubling backoff
delays, and ends with the result of the last attempt. -/
theorem requestLoop_allFail (script : Nat → Outcome) (base : Nat)
    (hfail : ∀ i, isTransient (script i) = true) :
    ∀ n i, 0 < n →
      (requestLoop script true base i n).attempts = n ∧
      (requestLoop script true base i n).result = outcomeResult (script (i + n - 1)) ∧
      (requestLoop script true base i n).delays
        = (List.range (n - 1)).map (fun k => backoffDelay base (i + k)) := by
  intro n
  induction n with
  | zero => intro i h; omega
  | succ n ih =>
    intro i _
    obtain ⟨e, he, -⟩ := isTransient_result (script i) (hfail i)
    rcases Nat.eq_zero_or_pos n with hn | hn
    · subst hn
      simp [requestLoop, he, hfail i]
    · have hcond : (true && isTransient (script i) && decide (0 < n)) = true := by
        simp [hfail i, hn]
      obtain ⟨iha, ihr, ihd⟩ := ih (i + 1) hn
      simp only [requestLoop, he, hcond, if_true]
      refine ⟨by rw [iha], by rw [ihr]; congr 1; congr 1; omega, ?_⟩
      rw [ihd]
      have hrange : n + 1 - 1 = (n - 1) + 1 := by omega
      rw [hrange, List.range_succ_eq_map, List.map_cons, List.map_map]
      simp only [Nat.add_zero]
      congr 1
      apply List.map_congr_left
      intro k _
      simp only [Function.comp_apply]
      congr 1
      omega

/-- The non-eligible retry loop makes exactly one attempt and returns the
first attempt's result. -/
theorem requestLoop_noRetry (script : Nat → Outcome) (base : Nat) (i n : Nat) (hn : 0 < n) :
    (requestLoop script false base i n).attempts = 1 ∧
    (requestLoop script false base i n).result = outcomeResult (script i) ∧
    (requestLoop script false base i n).delays = [] := by
  obtain ⟨n, rfl⟩ : ∃ m, n = m + 1 := ⟨n - 1, by omega⟩
  cases ho : outcomeResult (script i) with
  | ok b => simp [requestLoop, ho]
  | error e => simp [requestLoop, ho]

/-- C2 counterexample: a GET against a server that answers 429 on every
attempt exhausts the 3 configured attempts and then raises
`ValidationError` — the §4.2 mapping for a 4xx status other than
401/403/404/409 — not `ServiceError` or `NetworkError`. -/
theorem request_exhausted_429_raises_validation :
    (request .get 3 1 (fun _ => .response 429 "rate limited")).attempts = 3 ∧
    (request .get 3 1 (fun _ => .response 429 "rate limited")).result
      = .error ⟨.validation, 429, "rate limited"⟩ ∧
    ErrorKind.validation ≠ ErrorKind.service ∧
    ErrorKind.validation ≠ ErrorKind.network := by
  refine ⟨rfl, rfl, by decide, by decide⟩

/-- C2 (amended): a GET whose every attempt fails with a transient outcome
(network error or a 429/5xx response) is retried with doubling exponential
backoff up to the configured attempt limit and, once every attempt has
failed, raises the typed error of the final outcome per the §4.2 mapping —
NetworkError for a connection failure, ServiceError for 5xx,
ValidationError for an exhausted 429 — while POST, PUT and DELETE are never
retried: they make exactly one attempt. -/
theorem request_retry_spec (script : Nat → Outcome) (maxAttempts base : Nat)
    (hpos : 0 < maxAttempts) (hfail : ∀ i, isTransient (script i) = true) :
    (request .get maxAttempts base script).attempts = maxAttempts ∧
    (request .get maxAttempts base script).result
      = outcomeResult (script (maxAttempts - 1)) ∧
    (request .get maxAttempts base script).delays
      = (List.range (maxAttempts - 1)).map (backoffDelay base) ∧
    (∃ e, (request .get maxAttempts base script).result = .error e ∧
      (e.kind = .network ∨ e.kind = .service ∨ e.kind = .validation)) ∧
    (∀ m, retryEligible m = false →
      (request m maxAttempts base script).attempts = 1 ∧
      (request m maxAttempts base script).result = outcomeResult (script 0) ∧
      (request m maxAttempts base script).delays = []) ∧
    retryEligible .post = false ∧ retryEligible .put = false ∧
      retryEligible .delete = false := by
  obtain ⟨ha, hr, hd⟩ := requestLoop_allFail script base hfail maxAttempts 0 hpos
  have hzero : (0 : Nat) + maxAttempts - 1 = maxAttempts - 1 := by omega
  rw [hzero] at hr
  have hd' : (requestLoop script true base 0 maxAttempts).delays
      = (List.range (maxAttempts - 1)).map (backoffDelay base) := by
    rw [hd]
    apply List.map_congr_left
    intro k _
    simp [backoffDelay]
  refine ⟨ha, hr, hd', ?_, ?_, rfl, rfl, rfl⟩
  · obtain ⟨e, he, hk⟩ := isTransient_result (script (maxAttempts - 1)) (hfail _)
    exact ⟨e, hr.trans he, hk⟩
  · intro m hm
    unfold request
    rw [hm]
    exact requestLoop_noRetry script base 0 maxAttempts hpos

/-- Witness for C2 (amended) at a concrete input: a server that always
answers 503, a 3-attempt limit and base delay 1; GET makes 3 attempts with
delays [1, 2] and raises ServiceError, POST makes a single attempt. -/
theorem request_retry_spec_witness :
    (request .get 3 1 (fun _ => .response 503 "down")).attempts = 3 ∧
    (request .get 3 1 (fun _ => .response 503 "down")).delays = [1, 2] ∧
    (request .get 3 1 (fun _ => .response 503 "down")).result
      = .error ⟨.service, 503, "down"⟩ ∧
    (request .post 3 1 (fun _ => .response 503 "down")).attempts = 1 := by
  have h := request_retry_spec (fun _ => .response 503 "down") 3 1 (by decide)
    (fun _ => rfl)
  refine ⟨h.1, ?_, ?_, (h.2.2.2.2.1 .post rfl).1⟩
  · rw [h.2.2.1]
    rfl
  · rw [h.2.1]
    rfl

/-- C4: for every non-2xx HTTP response, the transport raises exactly the
typed error determined by the status code — 401/403 AuthError, 404
NotFoundError, 409 ConflictError, any other 4xx ValidationError, 5xx
ServiceError — and the error carries the status code and the
server-provided body. -/
theorem statusError_mapping (s : Nat) (body : String) (h2xx : is2xx s = false) :
    outcomeResult (.response s body) = .error (statusError s body) ∧
    (statusError s body).status = s ∧
    (statusError s body).message = body ∧
    ((s = 401 ∨ s = 403) → (statusError s body).kind = .auth) ∧
    (s = 404 → (statusError s body).kind = .notFound) ∧
    (s = 409 → (statusError s body).kind = .conflict) ∧
    (400 ≤ s → s < 500 → s ≠ 401 → s ≠ 403 → s ≠ 404 → s ≠ 409 →
      (statusError s body).kind = .validation) ∧
    (500 ≤ s → s < 600 → (statusError s body).kind = .service) := by
  refine ⟨by simp [outcomeResult, h2xx], ?_, ?_, ?_, ?_, ?_, ?_, ?_⟩
  · unfold statusError
    split_ifs <;> rfl
  · unfold statusError
    split_ifs <;> rfl
  · intro h
    simp [statusError, h]
  · intro h
    subst h
    rfl
  · intro h
    subst h
    rfl
  · intro h400 h500 h401 h403 h404 h409
    unfold statusError
    rw [if_neg (by omega), if_neg h404, if_neg h409, if_neg (by omega)]
  · intro h500 h600
    unfold statusError
    rw [if_neg (by omega), if_neg (by omega), if_neg (by omega), if_pos h500]

/-- Witness for C4 at a concrete input: a 404 response with body "missing"
raises NotFoundError carrying status 404 and the body. -/
theorem statusError_mapping_witness :
    outcomeResult (.response 404 "missing") = .error (statusError 404 "missing") ∧
    (statusError 404 "missing").kind = .notFound ∧
    (statusError 404 "missing").status = 404 ∧
    (statusError 404 "missing").message = "missing" := by
  have h := statusError_mapping 404 "missing" (by decide)
  exact ⟨h.1, h.2.2.2.2.1 rfl, h.2.1, h.2.2.1⟩

/-! ## OQS filter queries and the tabular sub-client (§3, §4.6) -/

/-- Modelled from the spec: a scalar cell value of a tabular dataset; the
notebooks use string-valued columns, the DSL also compares numbers and
booleans. -/
inductive OqsVal where
  | str (s : String)
  | int (n : Int)
  | boolean (b : Bool)
deriving DecidableEq, Repr

/-- A table row: an association list from column name to value. -/
abbrev Row := List (String × OqsVal)

/-- Column access within a row. -/
def rowLookup (r : Row) (c : String) : Option OqsVal :=
  match r with
  | [] => none
  | (k, v) :: rest => if k = c then some v else rowLookup rest c

/-- Modelled from the spec: the OQS filter query, "a small nested
expression tree (operator + operands, e.g. equality, comparison, boolean
combinators) evaluated server-side to select rows" (§3); the notebooks
write the equality node as `{"#EQUALS": ["$<column>", value]}`. -/
inductive FilterQuery where
  | equals (column : String) (value : OqsVal)
  | conj (a b : FilterQuery)
  | disj (a b : FilterQuery)
  | negation (a : FilterQuery)
deriving DecidableEq, Repr

/-- Modelled from the spec: server-side evaluation of a filter query
against one row (§3). -/
def evalFilter (q : FilterQuery) (r : Row) : Bool :=
  match q with
  | .equals c v => rowLookup r c == some v
  | .conj a b => evalFilter a r && evalFilter b r
  | .disj a b => evalFilter a r || evalFilter b r
  | .negation a => !evalFilter a r

/-- Modelled from the spec: the server-side state of one tabular dataset —
its rows, kept in server-determined order. -/
structure TabStore where
  rows : List Row
deriving DecidableEq, Repr

/-- Modelled from the spec: "write(dataset_ref, rows) appends" (§4.6). -/
def tabularWrite (st : TabStore) (data : List Row) : TabStore :=
  { rows := st.rows ++ data }

/-- Modelled from the spec: "select_as_list(dataset_ref, filter?) ->
materialized rows" (§4.6). -/
def tabularSelectAsList (st : TabStore) (q : Option FilterQuery) : List Row :=
  match q with
  | none => st.rows
  | some q => st.rows.filter (fun r => evalFilter q r)

/-- Modelled from the spec: "delete(dataset_ref, filter)" removes the rows
the filter selects (§4.6). -/
def tabularDelete (st : TabStore) (q : FilterQuery) : TabStore :=
  { rows := st.rows.filter (fun r => !evalFilter q r) }

/-- One-to-one positional replacement: each row matched by the filter is
replaced by the next supplied row, in server order; unmatched rows are kept. -/
def replaceMatched (q : FilterQuery) : List Row → List Row → List Row
  | [], _ => []
  | r :: rest, news =>
    if evalFilter q r then
      match news with
      | [] => r :: replaceMatched q rest []
      | n :: ns => n :: replaceMatched q rest ns
    else
      r :: replaceMatched q rest news

/-- Modelled from the spec: "update(dataset_ref, rows, filter) requires
len(rows) == count matched by filter, else ValidationError — rows matched
by filter are replaced positionally in server-determined order" (§4.6). -/
def tabularUpdate (st : TabStore) (data : List Row) (q : FilterQuery) :
    Except OdpError TabStore :=
  if data.length = (st.rows.filter (fun r => evalFilter q r)).length then
    .ok { rows := replaceMatched q st.rows data }
  else
    .error ⟨.validation, 400, "row count does not match filter match count"⟩

/-- Index-wise description of positional replacement: position `i` holds
the `k`-th supplied row, `k` being the number of matches before `i`, when
row `i` matches, and the original row otherwise. -/
theorem replaceMatched_getElem (q : FilterQuery) :
    ∀ (table news : List Row),
      (table.filter (fun r => evalFilter q r)).length ≤ news.length →
      (replaceMatched q table news).length = table.length ∧
      ∀ i row, table[i]? = some row →
        (evalFilter q row = true →
          (replaceMatched q table news)[i]?
            = news[((table.take i).filter (fun r => evalFilter q r)).length]?) ∧
        (evalFilter q row = false →
          (replaceMatched q table news)[i]? = table[i]?) := by
  intro table
  induction table with
  | nil =>
    intro news _
    refine ⟨rfl, ?_⟩
    intro i row h
    simp at h
  | cons r rest ih =>
    intro news hlen
    by_cases hq : evalFilter q r = true
    · have hfilt : ((r :: rest).filter (fun x => evalFilter q x))
          = r :: rest.filter (fun x => evalFilter q x) := by
        simp [List.filter_cons, hq]
      rw [hfilt] at hlen
      obtain ⟨n, ns, rfl⟩ : ∃ n ns, news = n :: ns := by
        cases news with
        | nil => simp at hlen
        | cons n ns => exact ⟨n, ns, rfl⟩
      have hlen' : (rest.filter (fun x => evalFilter q x)).length ≤ ns.length := by
        simpa using hlen
      obtain ⟨ihlen, ihget⟩ := ih ns hlen'
      have hrep : replaceMatched q (r :: rest) (n :: ns)
          = n :: replaceMatched q rest ns := by
        simp [replaceMatched, hq]
      refine ⟨by simp [hrep, ihlen], ?_⟩
      intro i row hrow
      cases i with
      | zero =>
        simp only [List.getElem?_cons_zero, Option.some_inj] at hrow
        subst hrow
        constructor
        · intro _
          simp [hrep]
        · intro hfalse
          rw [hq] at hfalse
          exact absurd hfalse (by simp)
      | succ j =>
        simp only [List.getElem?_cons_succ] at hrow
        obtain ⟨h1, h2⟩ := ihget j row hrow
        constructor
        · intro htrue
          rw [hrep]
          simp only [List.getElem?_cons_succ]
          have htake : ((List.take (j + 1) (r :: rest)).filter
                (fun x => evalFilter q x)).length
              = ((List.take j rest).filter (fun x => evalFilter q x)).length + 1 := by
            simp [List.take_succ_cons, List.filter_cons, hq]
          rw [htake]
          simp only [List.getElem?_cons_succ]
          exact h1 htrue
        · intro hfalse
          rw [hrep]
          simp only [List.getElem?_cons_succ]
          exact h2 hfalse
    · have hq' : evalFilter q r = false := by
        simpa using hq
      have hfilt : ((r :: rest).filter (fun x => evalFilter q x))
          = rest.filter (fun x => evalFilter q x) := by
        simp [List.filter_cons, hq']
      rw [hfilt] at hlen
      obtain ⟨ihlen, ihget⟩ := ih news hlen
      have hrep : replaceMatched q (r :: rest) news
          = r :: replaceMatched q rest news := by
        simp [replaceMatched, hq']
      refine ⟨by simp [hrep, ihlen], ?_⟩
      intro i row hrow
      cases i with
      | zero =>
        simp only [List.getElem?_cons_zero, Option.some_inj] at hrow
        subst hrow
        constructor
        · intro htrue
          rw [hq'] at htrue
          exact absurd htrue (by simp)
        · intro _
          simp [hrep]
      | succ j =>
        simp only [List.getElem?_cons_succ] at hrow
        obtain ⟨h1, h2⟩ := ihget j row hrow
        constructor
        · intro htrue
          rw [hrep]
          simp only [List.getElem?_cons_succ]
          have htake : ((List.take (j + 1) (r :: rest)).filter
                (fun x => evalFilter q x)).length
              = ((List.take j rest).filter (fun x => evalFilter q x)).length := by
            simp [List.take_succ_cons, List.filter_cons, hq']
          rw [htake]
          exact h1 htrue
        · intro hfalse
          rw [hrep]
          simp only [List.getElem?_cons_succ]
          exact h2 hfalse

/-- C3: `update(dataset_ref, rows, filter)` raises ValidationError when the
number of supplied rows differs from the number of rows the filter matches;
when the counts agree it succeeds and each matched row is replaced
one-to-one, positionally in server order, by the corresponding supplied
row, with all unmatched rows left unchanged. -/
theorem tabularUpdate_spec (st : TabStore) (data : List Row) (q : FilterQuery) :
    (data.length ≠ (st.rows.filter (fun r => evalFilter q r)).length →
      tabularUpdate st data q
        = .error ⟨.validation, 400, "row count does not match filter match count"⟩) ∧
    (data.length = (st.rows.filter (fun r => evalFilter q r)).length →
      ∃ st', tabularUpdate st data q = .ok st' ∧
        st'.rows.length = st.rows.length ∧
        ∀ i row, st.rows[i]? = some row →
          (evalFilter q row = true →
            st'.rows[i]?
              = data[((st.rows.take i).filter (fun r => evalFilter q r)).length]?) ∧
          (evalFilter q row = false → st'.rows[i]? = st.rows[i]?)) := by
  constructor
  · intro hne
    rw [tabularUpdate, if_neg hne]
  · intro heq
    refine ⟨{ rows := replaceMatched q st.rows data }, ?_, ?_⟩
    · rw [tabularUpdate, if_pos heq]
    · exact replaceMatched_getElem q st.rows data (Nat.le_of_eq heq.symm)

/-- Witness for C3 at the notebook's input: the table holds rows
`{"Data": "Test"}` and `{"Data": "Test1"}`; updating one row against the
filter `{"#EQUALS": ["$Data", "Test"]}` (one match) succeeds, while
supplying the original two rows against the same one-match filter raises
ValidationError. -/
theorem tabularUpdate_spec_witness :
    (∃ st', tabularUpdate ⟨[[("Data", OqsVal.str "Test")], [("Data", OqsVal.str "Test1")]]⟩
        [[("Data", OqsVal.str "Test Updated")]]
        (.equals "Data" (.str "Test"))
      = .ok st' ∧ st'.rows.length = 2) ∧
    tabularUpdate ⟨[[("Data", OqsVal.str "Test")], [("Data", OqsVal.str "Test1")]]⟩
        [[("Data", OqsVal.str "Test")], [("Data", OqsVal.str "Test1")]]
        (.equals "Data" (.str "Test"))
      = .error ⟨.validation, 400, "row count does not match filter match count"⟩ := by
  constructor
  · obtain ⟨st', hok, hlen, -⟩ :=
      (tabularUpdate_spec ⟨[[("Data", OqsVal.str "Test")], [("Data", OqsVal.str "Test1")]]⟩
        [[("Data", OqsVal.str "Test Updated")]] (.equals "Data" (.str "Test"))).2 (by decide)
    exact ⟨st', hok, hlen⟩
  · exact (tabularUpdate_spec ⟨[[("Data", OqsVal.str "Test")], [("Data", OqsVal.str "Test1")]]⟩
      [[("Data", OqsVal.str "Test")], [("Data", OqsVal.str "Test1")]]
      (.equals "Data" (.str "Test"))).1 (by decide)

/-- C10: deleting from a tabular dataset with an equality filter
`{"#EQUALS": ["$<column>", v]}` removes exactly the rows whose column
equals `v`: a subsequent `select_as_list` contains no matching row, and
the non-matching rows survive unchanged — in their original server order
(a sublist of the original rows) and with their multiplicities intact. -/
theorem tabularDelete_equals_spec (st : TabStore) (c : String) (v : OqsVal) :
    (∀ row ∈ tabularSelectAsList (tabularDelete st (.equals c v)) none,
      (rowLookup row c == some v) = false) ∧
    (tabularSelectAsList (tabularDelete st (.equals c v)) none).Sublist st.rows ∧
    (∀ row : Row, (rowLookup row c == some v) = false →
      (tabularSelectAsList (tabularDelete st (.equals c v)) none).count row
        = st.rows.count row) ∧
    (∀ row : Row, (rowLookup row c == some v) = true →
      (tabularSelectAsList (tabularDelete st (.equals c v)) none).count row = 0) := by
  have hsel : tabularSelectAsList (tabularDelete st (.equals c v)) none
      = st.rows.filter (fun r => !evalFilter (.equals c v) r) := rfl
  refine ⟨?_, ?_, ?_, ?_⟩
  · intro row hmem
    rw [hsel] at hmem
    have h := (List.mem_filter.mp hmem).2
    simpa [evalFilter] using h
  · rw [hsel]
    exact List.filter_sublist st.rows
  · intro row hrow
    rw [hsel]
    refine List.count_filter ?_
    simp [evalFilter, hrow]
  · intro row hrow
    rw [hsel]
    refine List.count_eq_zero.mpr ?_
    intro hmem
    have h := (List.mem_filter.mp hmem).2
    simp [evalFilter, hrow] at h

/-- Witness for C10 at the notebook's input: from the rows
`[{"Data": "Test"}, {"Data": "Test1"}]`, deleting with
`{"#EQUALS": ["$Data", "Test1"]}` leaves exactly `[{"Data": "Test"}]`. -/
theorem tabularDelete_equals_spec_witness :
    tabularSelectAsList
        (tabularDelete ⟨[[("Data", OqsVal.str "Test")], [("Data", OqsVal.str "Test1")]]⟩
          (.equals "Data" (.str "Test1"))) none
      = [[("Data", OqsVal.str "Test")]] ∧
    (tabularSelectAsList
        (tabularDelete ⟨[[("Data", OqsVal.str "Test")], [("Data", OqsVal.str "Test1")]]⟩
          (.equals "Data" (.str "Test1"))) none).count [("Data", OqsVal.str "Test1")]
      = 0 := by
  refine ⟨rfl, ?_⟩
  exact (tabularDelete_equals_spec
      ⟨[[("Data", OqsVal.str "Test")], [("Data", OqsVal.str "Test1")]]⟩
      "Data" (.str "Test1")).2.2.2 [("Data", OqsVal.str "Test1")] (by decide)

/-! ## Resource DTOs (§3, §4.3) -/

/-- Modelled from the spec: a JSON scalar value as exchanged with the API
(§4.3); the DTO module is not in the snapshot. -/
inductive JVal where
  | str (s : String)
  | num (n : Int)
  | boolean (b : Bool)
  | null
deriving DecidableEq, Repr

/-- A JSON object: its fields in textual order. -/
abbrev JObj := List (String × JVal)

/-- Field access within a JSON object. -/
def jLookup (j : JObj) (k : String) : Option JVal :=
  match j with
  | [] => none
  | (k', v) :: rest => if k' = k then some v else jLookup rest k

/-- Modelled from the spec: a catalog resource DTO (§3), flattened to its
envelope fields: the required `kind` and `name` set by the client, the
optional server-assigned `uuid`, and — per §9 — the forward-compatible
unknown optional fields preserved "as an opaque side-map" in `extras`. -/
structure Resource where
  kind : String
  name : String
  uuid : Option String
  extras : JObj
deriving DecidableEq, Repr

/-- The field names the typed DTO declares. -/
def isKnownField (k : String) : Bool :=
  k == "kind" || k == "name" || k == "uuid"

/-- The serialized form of the optional server-assigned identifier. -/
def uuidField (u : Option String) : JObj :=
  match u with
  | some s => [("uuid", JVal.str s)]
  | none => []

/-- Modelled from the spec: serialization of a resource back to JSON
(§4.3): the known fields in a canonical order followed by the preserved
unknown fields, so that output for the fields the client sets is
byte-for-byte reproducible. -/
def serialize (r : Resource) : JObj :=
  [("kind", JVal.str r.kind), ("name", JVal.str r.name)]
    ++ uuidField r.uuid ++ r.extras

/-- Modelled from the spec: parse/validate server JSON into the typed
resource (§4.3): an object whose required fields are missing or not
recognizable as strings is rejected as ValidationError; the known optional
`uuid` is typed when present; every unknown optional field passes through
into `extras` unchanged. -/
def parse (j : JObj) : Except OdpError Resource :=
  match jLookup j "kind", jLookup j "name" with
  | some (.str kind), some (.str name) =>
    match jLookup j "uuid" with
    | some (.str u) =>
        .ok { kind := kind, name := name, uuid := some u,
              extras := j.filter (fun kv => !isKnownField kv.1) }
    | some _ => .error ⟨.validation, 400, "field uuid must be a string"⟩
    | none =>
        .ok { kind := kind, name := name, uuid := none,
              extras := j.filter (fun kv => !isKnownField kv.1) }
  | _, _ => .error ⟨.validation, 400, "missing or invalid required field"⟩

/-- Canonical JSON text of a scalar. -/
def renderVal : JVal → String
  | .str s => "\"" ++ s ++ "\""
  | .num n => toString n
  | .boolean b => if b then "true" else "false"
  | .null => "null"

/-- Canonical JSON text of an object's fields. -/
def renderFields : JObj → String
  | [] => ""
  | [(k, v)] => "\"" ++ k ++ "\":" ++ renderVal v
  | (k, v) :: rest => "\"" ++ k ++ "\":" ++ renderVal v ++ "," ++ renderFields rest

/-- Canonical JSON text of an object: the bytes the client sends. -/
def render (j : JObj) : String := "\x7b" ++ renderFields j ++ "\x7d"

/-- A client-constructed resource is well formed when its preserved
unknown fields do not shadow a declared field. -/
def wellFormed (r : Resource) : Prop :=
  ∀ kv ∈ r.extras, isKnownField kv.1 = false

/-- Looking up a declared field name inside a field list that holds only
unknown names finds nothing. -/
theorem jLookup_unknown_none (j : JObj) (k : String)
    (hk : isKnownField k = true)
    (h : ∀ kv ∈ j, isKnownField kv.1 = false) :
    jLookup j k = none := by
  induction j with
  | nil => rfl
  | cons kv rest ih =>
    obtain ⟨k', v⟩ := kv
    simp only [jLookup]
    rw [if_neg, ih (fun x hx => h x (List.mem_cons_of_mem _ hx))]
    intro hkk
    have hfalse := h (k', v) (List.mem_cons_self _ _)
    simp only at hfalse
    rw [hkk, hk] at hfalse
    simp at hfalse

/-- Serialization emits the preserved unknown fields as exactly the
unknown-named part of the output object. -/
theorem serialize_filter_unknown (r : Resource) (hwf : wellFormed r) :
    (serialize r).filter (fun kv => !isKnownField kv.1) = r.extras := by
  obtain ⟨kind, name, uuid, extras⟩ := r
  have hself : extras.filter (fun kv => !isKnownField kv.1) = extras :=
    List.filter_eq_self.mpr (fun kv hkv => by
      simp only [Bool.not_eq_true']
      exact hwf kv hkv)
  have h1 : (!isKnownField "kind") = false := rfl
  have h2 : (!isKnownField "name") = false := rfl
  have h3 : (!isKnownField "uuid") = false := rfl
  rcases uuid with _ | u
  · simpa [serialize, uuidField, List.filter_append, List.filter_cons, h1, h2]
      using hself
  · simpa [serialize, uuidField, List.filter_append, List.filter_cons, h1, h2, h3]
      using hself

/-- Any successfully parsed resource carries exactly the unknown-named
fields of its source object. -/
theorem parse_ok_extras (j : JObj) (p : Resource) (h : parse j = .ok p) :
    p.extras = j.filter (fun kv => !isKnownField kv.1) := by
  unfold parse at h
  split at h
  · split at h
    · cases h
      rfl
    · simp at h
    · cases h
      rfl
  · simp at h

/-- Every field of a parsed resource's side-map has an unknown name. -/
theorem parse_ok_wellFormed (j : JObj) (p : Resource) (h : parse j = .ok p) :
    wellFormed p := by
  intro kv hkv
  rw [parse_ok_extras j p h] at hkv
  have := (List.mem_filter.mp hkv).2
  simpa using this

/-- Parsing the serialization of a well-formed resource recovers it. -/
theorem parse_serialize (r : Resource) (hwf : wellFormed r) :
    parse (serialize r) = .ok r := by
  obtain ⟨kind, name, uuid, extras⟩ := r
  have hkind : jLookup (serialize ⟨kind, name, uuid, extras⟩) "kind"
      = some (.str kind) := by
    rcases uuid with _ | u <;> simp [serialize, uuidField, jLookup]
  have hname : jLookup (serialize ⟨kind, name, uuid, extras⟩) "name"
      = some (.str name) := by
    rcases uuid with _ | u <;> simp [serialize, uuidField, jLookup]
  have hextra : jLookup extras "uuid" = none :=
    jLookup_unknown_none extras "uuid" rfl hwf
  have huuid : jLookup (serialize ⟨kind, name, uuid, extras⟩) "uuid"
      = (uuid.map JVal.str) := by
    rcases uuid with _ | u <;> simp [serialize, uuidField, jLookup, hextra]
  have hfilt := serialize_filter_unknown ⟨kind, name, uuid, extras⟩ hwf
  rcases uuid with _ | u <;>
    simp_all [parse, Option.map]

/-- C5: for every well-formed client-constructed resource,
`parse(serialize(resource)) == resource`; unknown optional fields pass
through parse-then-serialize unchanged; an object whose required fields
are missing is rejected with ValidationError; and the serialized bytes of
the round-tripped resource reproduce the original byte-for-byte. -/
theorem resource_roundtrip_spec (r : Resource) (hwf : wellFormed r) :
    parse (serialize r) = .ok r ∧
    (∀ j p, parse j = .ok p →
      (serialize p).filter (fun kv => !isKnownField kv.1)
        = j.filter (fun kv => !isKnownField kv.1)) ∧
    (∀ j : JObj, jLookup j "kind" = none ∨ jLookup j "name" = none →
      parse j = .error ⟨.validation, 400, "missing or invalid required field"⟩) ∧
    (∀ p, parse (serialize r) = .ok p → render (serialize p) = render (serialize r)) := by
  refine ⟨parse_serialize r hwf, ?_, ?_, ?_⟩
  · intro j p hp
    rw [serialize_filter_unknown p (parse_ok_wellFormed j p hp)]
    exact parse_ok_extras j p hp
  · intro j hj
    rcases hj with hj | hj <;> simp [parse, hj]
  · intro p hp
    rw [parse_serialize r hwf] at hp
    cases hp
    rfl

/-- Witness for C5 at a concrete input: a dataset resource carrying one
unknown optional field round-trips exactly, and an object missing the
required `kind` field is rejected with ValidationError. -/
theorem resource_roundtrip_spec_witness :
    parse (serialize ⟨"catalog.hubocean.io/dataset", "narwhals", none,
        [("future_field", JVal.num 7)]⟩)
      = .ok ⟨"catalog.hubocean.io/dataset", "narwhals", none,
        [("future_field", JVal.num 7)]⟩ ∧
    parse [("name", JVal.str "narwhals")]
      = .error ⟨.validation, 400, "missing or invalid required field"⟩ := by
  have h := resource_roundtrip_spec
    ⟨"catalog.hubocean.io/dataset", "narwhals", none, [("future_field", JVal.num 7)]⟩
    (by intro kv hkv; simp at hkv; rw [hkv]; rfl)
  exact ⟨h.1, h.2.2.1 [("name", JVal.str "narwhals")] (Or.inl rfl)⟩

/-! ## Catalog sub-client (§4.4) -/

/-- Modelled from the spec: a catalog resource as stored server-side —
its client-chosen name, the server-assigned UUID (absent until creation),
and its type-specific spec payload (§3, §4.4). -/
structure CatResource where
  name : String
  uuid : Option String
  specData : String
deriving DecidableEq, Repr

/-- Modelled from the spec: client-side DTO construction; the metadata
UUID is unset before creation (§3: "UUID assigned server-side on
creation"). -/
def mkClientResource (name specData : String) : CatResource :=
  { name := name, uuid := none, specData := specData }

/-- Modelled from the spec: the catalog's server-side state: the live
resources, plus the ledger of every UUID the server has ever assigned —
UUIDs are never reused, which is what makes them immutable identifiers. -/
structure CatState where
  resources : List CatResource
  used : List String
deriving DecidableEq, Repr

/-- Modelled from the spec: "create(resource) -> Resource (fails
ConflictError if name collides within owner scope)" (§4.4); the server
assigns the fresh UUID `u` during creation. -/
def catalogCreate (st : CatState) (r : CatResource) (u : String) :
    Except OdpError (CatResource × CatState) :=
  if st.resources.any (fun x => x.name == r.name) then
    .error ⟨.conflict, 409, "name already exists"⟩
  else if u ∈ st.used then
    .error ⟨.service, 500, "uuid already assigned"⟩
  else
    let created := { r with uuid := some u }
    .ok (created, { resources := created :: st.resources, used := u :: st.used })

/-- Modelled from the spec: "delete(id) -> idempotent-by-id (deleting
already-deleted resource fails NotFoundError)" (§4.4). -/
def catalogDelete (st : CatState) (u : String) : Except OdpError CatState :=
  if st.resources.any (fun x => x.uuid == some u) then
    .ok { resources := st.resources.filter (fun x => !(x.uuid == some u)),
          used := st.used }
  else
    .error ⟨.notFound, 404, "resource not found"⟩

/-- C6: deleting an existing catalog resource succeeds, and a second
delete of the same id on the resulting state fails with NotFoundError. -/
theorem catalogDelete_twice (st : CatState) (u : String)
    (h : st.resources.any (fun x => x.uuid == some u) = true) :
    ∃ st', catalogDelete st u = .ok st' ∧
      catalogDelete st' u = .error ⟨.notFound, 404, "resource not found"⟩ := by
  refine ⟨_, by rw [catalogDelete, if_pos h], ?_⟩
  rw [catalogDelete, if_neg]
  intro hany
  rw [List.any_eq_true] at hany
  obtain ⟨x, hx, hxu⟩ := hany
  have hkeep := (List.mem_filter.mp hx).2
  rw [hxu] at hkeep
  simp at hkeep

/-- Witness for C6 at a concrete input: a catalog holding one dataset with
UUID "u1"; the first delete succeeds and the second raises NotFoundError. -/
theorem catalogDelete_twice_witness :
    ∃ st', catalogDelete ⟨[⟨"seahorses", some "u1", "raw"⟩], ["u1"]⟩ "u1" = .ok st' ∧
      catalogDelete st' "u1" = .error ⟨.notFound, 404, "resource not found"⟩ :=
  catalogDelete_twice ⟨[⟨"seahorses", some "u1", "raw"⟩], ["u1"]⟩ "u1" (by decide)

/-- Modelled from the spec: the state-changing catalog operations a caller
can issue after a resource exists (§4.4); `get`/`list` leave the server
state unchanged, so a sequence of creates and deletes covers every
subsequent operation. -/
inductive CatOp where
  | createOp (r : CatResource) (u : String)
  | deleteOp (u : String)
deriving DecidableEq, Repr

/-- One catalog operation applied to the server state (a failed operation
leaves the state unchanged). -/
def applyOp (st : CatState) (op : CatOp) : CatState :=
  match op with
  | .createOp r u =>
    match catalogCreate st r u with
    | .ok (_, st') => st'
    | .error _ => st
  | .deleteOp u =>
    match catalogDelete st u with
    | .ok st' => st'
    | .error _ => st

/-- A sequence of catalog operations applied in order. -/
def applyOps (st : CatState) (ops : List CatOp) : CatState :=
  match ops with
  | [] => st
  | op :: rest => applyOps (applyOp st op) rest

/-- `r` owns UUID `u` in a catalog state: the UUID is recorded as assigned
and every live resource carrying it is `r` itself. -/
def ownsUuid (st : CatState) (u : String) (r : CatResource) : Prop :=
  u ∈ st.used ∧ ∀ x ∈ st.resources, x.uuid = some u → x = r

/-- UUID ownership survives every single catalog operation. -/
theorem ownsUuid_applyOp (st : CatState) (u : String) (r : CatResource)
    (h : ownsUuid st u r) (op : CatOp) : ownsUuid (applyOp st op) u r := by
  obtain ⟨hused, hown⟩ := h
  cases op with
  | createOp r' u' =>
    by_cases hname : st.resources.any (fun x => x.name == r'.name) = true
    · simp only [applyOp, catalogCreate, if_pos hname]
      exact ⟨hused, hown⟩
    · rw [Bool.not_eq_true] at hname
      by_cases hu' : u' ∈ st.used
      · simp only [applyOp, catalogCreate, hname, Bool.false_eq_true, if_false,
          if_pos hu']
        exact ⟨hused, hown⟩
      · simp only [applyOp, catalogCreate, hname, Bool.false_eq_true, if_false,
          if_neg hu']
        refine ⟨List.mem_cons_of_mem _ hused, ?_⟩
        intro x hx hxu
        rcases List.mem_cons.mp hx with hx | hx
        · subst hx
          simp only at hxu
          rw [Option.some_inj] at hxu
          subst hxu
          exact absurd hused hu'
        · exact hown x hx hxu
  | deleteOp u' =>
    by_cases hdel : st.resources.any (fun x => x.uuid == some u') = true
    · simp only [applyOp, catalogDelete, if_pos hdel]
      refine ⟨hused, ?_⟩
      intro x hx hxu
      exact hown x (List.mem_filter.mp hx).1 hxu
    · simp only [applyOp, catalogDelete, if_neg hdel]
      exact ⟨hused, hown⟩

/-- UUID ownership survives every sequence of catalog operations. -/
theorem ownsUuid_applyOps (u : String) (r : CatResource) (ops : List CatOp) :
    ∀ st : CatState, ownsUuid st u r → ownsUuid (applyOps st ops) u r := by
  induction ops with
  | nil => intro st h; exact h
  | cons op rest ih =>
    intro st h
    exact ih (applyOp st op) (ownsUuid_applyOp st u r h op)

/-- C9: the client-constructed DTO has no UUID; `catalog.create` on a
fresh name and a never-assigned UUID succeeds and returns the resource
carrying the server-assigned UUID; and after any sequence of subsequent
catalog operations, every live resource still carrying that UUID is the
created resource unchanged — no operation ever rebinds or mutates it. -/
theorem uuid_lifecycle_spec (name specData u : String) (st : CatState)
    (hname : st.resources.any (fun x => x.name == name) = false)
    (hfresh : u ∉ st.used)
    (hledger : ∀ x ∈ st.resources, ∀ v, x.uuid = some v → v ∈ st.used) :
    (mkClientResource name specData).uuid = none ∧
    ∃ created st',
      catalogCreate st (mkClientResource name specData) u = .ok (created, st') ∧
      created.uuid = some u ∧
      ∀ ops : List CatOp, ∀ x ∈ (applyOps st' ops).resources,
        x.uuid = some u → x = created := by
  refine ⟨rfl, { mkClientResource name specData with uuid := some u },
    { resources := { mkClientResource name specData with uuid := some u } :: st.resources,
      used := u :: st.used }, ?_, rfl, ?_⟩
  · have hname' : (st.resources.any
        fun x => x.name == (mkClientResource name specData).name) = false := hname
    rw [catalogCreate, if_neg (by simp [hname']), if_neg hfresh]
  · intro ops x hx hxu
    refine (ownsUuid_applyOps u _ ops _ ?_).2 x hx hxu
    constructor
    · exact List.mem_cons_self _ _
    · intro y hy hyu
      rcases List.mem_cons.mp hy with hy | hy
      · exact hy
      · exact absurd (hledger y hy u hyu) hfresh

/-- Witness for C9 at a concrete input: creating "seahorses" in an empty
catalog with server-assigned UUID "123": the client DTO carries no UUID
and the created resource carries "123". -/
theorem uuid_lifecycle_spec_witness :
    (mkClientResource "seahorses" "raw").uuid = none ∧
    ∃ created st',
      catalogCreate ⟨[], []⟩ (mkClientResource "seahorses" "raw") "123"
        = .ok (created, st') ∧
      created.uuid = some "123" ∧
      ∀ ops : List CatOp, ∀ x ∈ (applyOps st' ops).resources,
        x.uuid = some "123" → x = created := by
  refine uuid_lifecycle_spec "seahorses" "raw" "123" ⟨[], []⟩ rfl ?_ ?_
  · intro h
    simp at h
  · intro x hx
    simp at hx

/-! ## Raw sub-client (§4.5) -/

/-- Modelled from the spec: file metadata registered before upload (§3):
the file's name and mime type. -/
structure FileMetadata where
  name : String
  mimeType : String
deriving DecidableEq, Repr

/-- Modelled from the spec: server-side raw-storage state of one dataset:
the registered file metadata and the uploaded contents, keyed by file
name; bytes are values in 0..255. -/
structure RawState where
  metadata : List FileMetadata
  blobs : List (String × List Nat)
deriving DecidableEq, Repr

/-- Fault model for the two-step create_file action: whether metadata
registration, content upload, or the rollback delete fail, and with which
typed transport error. -/
structure SagaFaults where
  registerError : Option OdpError
  uploadError : Option OdpError
  rollbackError : Option OdpError
deriving DecidableEq, Repr

/-- Outcome of create_file: the created file, a single propagated typed
error, or the original upload error reported together with the rollback
failure. -/
inductive CreateFileResult where
  | created (meta : FileMetadata)
  | failed (e : OdpError)
  | failedRollbackFailed (original rollbackErr : OdpError)
deriving DecidableEq, Repr

/-- Modelled from the spec: "create_file(dataset_ref, metadata, contents)
performs metadata registration then content upload as one logical action,
rolling back metadata registration if upload fails (best-effort; may leave
orphaned metadata)" (§4.5), with both errors reported together when the
rollback itself fails (§7). -/
def createFile (st : RawState) (meta : FileMetadata) (contents : List Nat)
    (faults : SagaFaults) : CreateFileResult × RawState :=
  match faults.registerError with
  | some e => (.failed e, st)
  | none =>
    match faults.uploadError with
    | none =>
        (.created meta,
         { metadata := meta :: st.metadata,
           blobs := (meta.name, contents) :: st.blobs })
    | some e =>
      match faults.rollbackError with
      | none => (.failed e, st)
      | some e' =>
          (.failedRollbackFailed e e',
           { metadata := meta :: st.metadata, blobs := st.blobs })

/-- Where downloaded bytes go: written to disk at the given path, or
returned as a byte stream. -/
inductive DownloadResult where
  | toDisk (path : String) (bytes : List Nat)
  | stream (bytes : List Nat)
deriving DecidableEq, Repr

/-- Content access by file name. -/
def blobLookup (bs : List (String × List Nat)) (name : String) : Option (List Nat) :=
  match bs with
  | [] => none
  | (k, v) :: rest => if k = name then some v else blobLookup rest name

/-- Modelled from the spec: "download_file(dataset_ref, file_ref, path?)
streams bytes to disk if path given, else returns a byte stream" (§4.5). -/
def downloadFile (st : RawState) (fileName : String) (path : Option String) :
    Except OdpError DownloadResult :=
  match blobLookup st.blobs fileName with
  | none => .error ⟨.notFound, 404, "file not found"⟩
  | some bytes =>
    match path with
    | some p => .ok (.toDisk p bytes)
    | none => .ok (.stream bytes)

/-- C7: uploading a byte string with create_file and then downloading the
file returns byte-identical contents — written to disk when a path is
given, returned as a byte stream otherwise. -/
theorem raw_roundtrip_spec (st : RawState) (meta : FileMetadata)
    (contents : List Nat) (p : String) :
    ∃ st', createFile st meta contents ⟨none, none, none⟩ = (.created meta, st') ∧
      downloadFile st' meta.name (some p) = .ok (.toDisk p contents) ∧
      downloadFile st' meta.name none = .ok (.stream contents) := by
  refine ⟨_, rfl, ?_, ?_⟩ <;> simp [downloadFile, blobLookup]

/-- Witness for C7 at the notebook's input: uploading the bytes of
"Hello, World!" as test.txt into an empty dataset and downloading it
returns exactly those bytes, both to disk and as a stream. -/
theorem raw_roundtrip_spec_witness :
    ∃ st', createFile ⟨[], []⟩ ⟨"test.txt", "text/plain"⟩
        [72, 101, 108, 108, 111, 44, 32, 87, 111, 114, 108, 100, 33]
        ⟨none, none, none⟩
      = (.created ⟨"test.txt", "text/plain"⟩, st') ∧
      downloadFile st' "test.txt" (some "test.txt")
        = .ok (.toDisk "test.txt"
            [72, 101, 108, 108, 111, 44, 32, 87, 111, 114, 108, 100, 33]) ∧
      downloadFile st' "test.txt" none
        = .ok (.stream [72, 101, 108, 108, 111, 44, 32, 87, 111, 114, 108, 100, 33]) :=
  raw_roundtrip_spec ⟨[], []⟩ ⟨"test.txt", "text/plain"⟩
    [72, 101, 108, 108, 111, 44, 32, 87, 111, 114, 108, 100, 33] "test.txt"

/-- C8: when registration succeeds and the upload fails, the metadata
registration is rolled back and the original typed error is raised; when
that rollback itself fails, both the original and the rollback error are
reported together (the orphaned metadata remains); a registration failure
propagates its typed error untouched; and in every fault combination the
surfaced errors are exactly the typed transport errors — never swallowed. -/
theorem createFile_rollback_spec (st : RawState) (meta : FileMetadata)
    (contents : List Nat) (e e' : OdpError) :
    createFile st meta contents ⟨none, some e, none⟩ = (.failed e, st) ∧
    createFile st meta contents ⟨none, some e, some e'⟩
      = (.failedRollbackFailed e e',
         { metadata := meta :: st.metadata, blobs := st.blobs }) ∧
    createFile st meta contents ⟨some e, none, none⟩ = (.failed e, st) ∧
    (∀ f : SagaFaults,
      (createFile st meta contents f).1 = .created meta ∨
      (∃ x, (createFile st meta contents f).1 = .failed x ∧
        (f.registerError = some x ∨ f.uploadError = some x)) ∨
      (∃ x y, (createFile st meta contents f).1 = .failedRollbackFailed x y ∧
        f.uploadError = some x ∧ f.rollbackError = some y)) := by
  refine ⟨rfl, rfl, rfl, ?_⟩
  intro f
  obtain ⟨re, ue, be⟩ := f
  rcases re with _ | x
  · rcases ue with _ | x
    · exact Or.inl rfl
    · rcases be with _ | y
      · exact Or.inr (Or.inl ⟨x, rfl, Or.inr rfl⟩)
      · exact Or.inr (Or.inr ⟨x, y, rfl, rfl, rfl⟩)
  · exact Or.inr (Or.inl ⟨x, rfl, Or.inl rfl⟩)

/-- Witness for C8 at a concrete input: uploading to a dataset where the
upload raises ServiceError — with a clean rollback the metadata is rolled
back and the ServiceError propagates; with a failing rollback both errors
are reported together. -/
theorem createFile_rollback_spec_witness :
    createFile ⟨[], []⟩ ⟨"test.txt", "text/plain"⟩ [72]
        ⟨none, some ⟨.service, 503, "upload failed"⟩, none⟩
      = (.failed ⟨.service, 503, "upload failed"⟩, ⟨[], []⟩) ∧
    createFile ⟨[], []⟩ ⟨"test.txt", "text/plain"⟩ [72]
        ⟨none, some ⟨.service, 503, "upload failed"⟩,
          some ⟨.network, 0, "rollback failed"⟩⟩
      = (.failedRollbackFailed ⟨.service, 503, "upload failed"⟩
          ⟨.network, 0, "rollback failed"⟩,
         ⟨[⟨"test.txt", "text/plain"⟩], []⟩) := by
  have h := createFile_rollback_spec ⟨[], []⟩ ⟨"test.txt", "text/plain"⟩ [72]
    ⟨.service, 503, "upload failed"⟩ ⟨.network, 0, "rollback failed"⟩
  exact ⟨h.1, h.2.1⟩

end ODP
